import Mathlib

/-!
# primacy_demo: the pipeline state machine of `main.js`

A shallow embedding of the three module-level variables of `main.js`
(`pipeline_args`, `pipeline_results`, `current_module`), of the functions
`goToModule` and `execPipeline`, and of the two `ipcMain` handlers
`LOADMODULE` and `EXECUTE`.

Modelling conventions.

* A JavaScript array is a list of optional values: `none` is a hole, which
  reads as `undefined`. `JSON.parse` never yields `undefined`, so every
  stored entry is `some v`.
* Module numbers are natural numbers (the data model's module index). An
  index expression such as `module_number-1` is computed over the integers,
  and reading an array at a negative index gives `undefined`.
* `JSON.parse` and the value `{}` are platform built-ins: they are taken as
  a parameter (`JSONLib`). `parse s = none` stands for the `SyntaxError`
  that `JSON.parse` throws.
* The external process started by `child_process.exec` is a parameter of
  each `EXECUTE` event: it maps the command name and the contents of
  `args.json` at launch to its standard output and to the contents of
  `args.json` when it has exited.
* Each handler runs to completion before the next event (the callback of
  `child_process.exec` and the `dom-ready` callback are run as part of the
  event that registered them). The browser window is assumed to exist.
  `console.log` is not modelled.
-/

namespace Primacy

/-- Reading `xs[i]` on a JavaScript array: `undefined` outside the bounds,
at a negative index, or at a hole. -/
def arrayGet {J : Type} (xs : List (Option J)) (i : Int) : Option J :=
  if i < 0 then none else xs.getD i.toNat none

/-- The assignment `xs[i] = v` on a JavaScript array: in place below the
length, otherwise the array grows to length `i + 1` and the skipped
positions are holes. -/
def arraySet {J : Type} (xs : List (Option J)) (i : Nat) (v : J) : List (Option J) :=
  if i < xs.length then List.set xs i (some v)
  else xs ++ List.replicate (i - xs.length) none ++ [some v]

/-- The built-ins of the JavaScript platform that `main.js` uses on JSON
values: `JSON.parse` (with `none` for a thrown `SyntaxError`) and the
object literal `{}`. -/
structure JSONLib (J : Type) where
  parse : String → Option J
  emptyObject : J

/-- The module-level variables of `main.js` (lines 22-24). -/
structure Store (J : Type) where
  pipeline_args : List (Option J)
  pipeline_results : List (Option J)
  current_module : Nat
deriving DecidableEq, Repr

/-- The values of the module-level variables when the program starts:
`pipeline_args = [{}]`, `pipeline_results = []`, `current_module = 0`. -/
def initialStore {J : Type} (json : JSONLib J) : Store J :=
  { pipeline_args := [some json.emptyObject]
    pipeline_results := []
    current_module := 0 }

/-- The observable actions of the main process. -/
inductive Effect (J : Type)
  /-- The call `win.loadURL` of `goToModule` on the page of a module. -/
  | loadURL (module_number : Nat)
  /-- The call `fs.writeFileSync` on `args.json`. -/
  | writeFileSync (contents : String)
  /-- The message `NEW` with the pair sent to the freshly loaded page. -/
  | sendNEW (args : Option J) (result : Option J)
  /-- The message `LOADMODULE` with the payload `DENIED`. -/
  | sendDENIED
  /-- The message `EXECUTE`; `none` is the payload `null`. -/
  | sendEXECUTE (result : Option String)
deriving DecidableEq, Repr

/-- What the main process observes of one run of the external command: its
standard output and the contents of `args.json` after it has exited. -/
structure ExecResult where
  stdout : String
  data : String
deriving DecidableEq, Repr

/-- How a call of `execPipeline` ends: its callback is called with a value
(`none` for `null`), or one of the two `JSON.parse` calls throws and the
callback is never called. -/
inductive Completion
  | called (result : Option String)
  | thrownParsingArgs
  | thrownParsingData
deriving DecidableEq, Repr

/-- The function `goToModule` (lines 51-73): the returned boolean, the store
afterwards and the page load it performs. -/
def goToModule {J : Type} (module_number : Nat) (s : Store J) :
    Bool × Store J × List (Effect J) :=
  if s.pipeline_args.length < module_number + 1 ∧
      s.pipeline_results.length < module_number then
    (false, s, [])
  else
    (true, { s with current_module := module_number }, [Effect.loadURL module_number])

/-- The callback that the `LOADMODULE` handler registers for `dom-ready`
(line 144): it reads both arrays when it runs. -/
def onDomReady {J : Type} (module_number : Nat) (s : Store J) : Effect J :=
  Effect.sendNEW (arrayGet s.pipeline_args (module_number : Int))
    (arrayGet s.pipeline_results ((module_number : Int) - 1))

/-- The handler of the `LOADMODULE` message (lines 139-149). -/
def onLOADMODULE {J : Type} (module_number : Nat) (s : Store J) :
    Store J × List (Effect J) :=
  match goToModule module_number s with
  | (true, s1, effects) => (s1, effects ++ [onDomReady module_number s1])
  | (false, s1, effects) => (s1, effects ++ [Effect.sendDENIED])

/-- The function `execPipeline` (lines 76-110), with the external process
`proc` run to its exit. The third component records how the call ends. -/
def execPipeline {J : Type} (json : JSONLib J) (cmd args : String)
    (proc : String → String → ExecResult) (s : Store J) :
    Store J × List (Effect J) × Completion :=
  match json.parse args with
  | none => (s, [], Completion.thrownParsingArgs)
  | some args_json =>
    let s1 : Store J :=
      { s with pipeline_args := arraySet s.pipeline_args s.current_module args_json }
    let out := proc cmd args
    if out.stdout ≠ "" then
      (s1, [Effect.writeFileSync args], Completion.called (some out.stdout))
    else
      match json.parse out.data with
      | none => (s1, [Effect.writeFileSync args], Completion.thrownParsingData)
      | some result =>
        ({ s1 with
            pipeline_results := arraySet s1.pipeline_results s1.current_module result },
          [Effect.writeFileSync args], Completion.called none)

/-- The handler of the `EXECUTE` message (lines 152-158): the callback it
passes to `execPipeline` sends its argument back on the same channel. -/
def onEXECUTE {J : Type} (json : JSONLib J) (cmd args : String)
    (proc : String → String → ExecResult) (s : Store J) :
    Store J × List (Effect J) :=
  match execPipeline json cmd args proc s with
  | (s1, effects, Completion.called result) => (s1, effects ++ [Effect.sendEXECUTE result])
  | (s1, effects, _) => (s1, effects)

/-- The messages the main process can receive from a page. -/
inductive Event
  | LOADMODULE (module_number : Nat)
  | EXECUTE (cmd args : String) (proc : String → String → ExecResult)

/-- One event handled to completion. -/
def step {J : Type} (json : JSONLib J) (e : Event) (s : Store J) : Store J :=
  match e with
  | Event.LOADMODULE module_number => (onLOADMODULE module_number s).1
  | Event.EXECUTE cmd args proc => (onEXECUTE json cmd args proc s).1

/-- A sequence of events handled one after the other. -/
def run {J : Type} (json : JSONLib J) : List Event → Store J → Store J
  | [], s => s
  | e :: es, s => run json es (step json e s)

/-- The module numbers whose stage ended with `callback(null)` during a
sequence of events: the value of `current_module` at each such `EXECUTE`. -/
def completedStages {J : Type} (json : JSONLib J) : List Event → Store J → List Nat
  | [], _ => []
  | Event.LOADMODULE module_number :: es, s =>
    completedStages json es (step json (Event.LOADMODULE module_number) s)
  | Event.EXECUTE cmd args proc :: es, s =>
    (if (execPipeline json cmd args proc s).2.2 = Completion.called none then
      [s.current_module] else []) ++
      completedStages json es (step json (Event.EXECUTE cmd args proc) s)

/-- The module numbers at which an `EXECUTE` message was received during a
sequence of events: the value of `current_module` at each `EXECUTE`. -/
def executedModules {J : Type} (json : JSONLib J) : List Event → Store J → List Nat
  | [], _ => []
  | Event.LOADMODULE module_number :: es, s =>
    executedModules json es (step json (Event.LOADMODULE module_number) s)
  | Event.EXECUTE cmd args proc :: es, s =>
    s.current_module ::
      executedModules json es (step json (Event.EXECUTE cmd args proc) s)

/-- The store reached from the start of the program by a sequence of events. -/
def reached {J : Type} (json : JSONLib J) (events : List Event) : Store J :=
  run json events (initialStore json)

/-- A stand-in for the JSON built-ins in the worked examples: values are
flat objects with integer fields, and `parse` knows the three texts the
examples use; any other text is rejected. -/
def exampleJSON : JSONLib (List (String × Int)) where
  parse := fun text =>
    if text = "\x7b\x7d" then some []
    else if text = "\x7b\"a\":1\x7d" then some [("a", 1)]
    else if text = "\x7b\"a\":1,\"b\":2\x7d" then some [("a", 1), ("b", 2)]
    else none
  emptyObject := []

/-- An external stage that prints nothing and leaves the text
`{"a":1,"b":2}` in `args.json`. -/
def exampleStage : String → String → ExecResult :=
  fun _ _ => { stdout := "", data := "\x7b\"a\":1,\"b\":2\x7d" }

/-- An external stage that prints `boom` and leaves `args.json` as it
found it. -/
def failingStage : String → String → ExecResult :=
  fun _ contents => { stdout := "boom", data := contents }

/-- An array without holes: every position below the length holds a value. -/
def noGaps {J : Type} (xs : List (Option J)) : Bool :=
  xs.all Option.isSome

/-- The shape of the store that every sequence of events preserves: neither
array has a hole, `current_module` is at most the number of results, and
there are as many arguments as results or one more. -/
def wellShaped {J : Type} (s : Store J) : Prop :=
  noGaps s.pipeline_args = true ∧ noGaps s.pipeline_results = true ∧
  s.current_module ≤ s.pipeline_results.length ∧
  s.pipeline_results.length ≤ s.pipeline_args.length ∧
  s.pipeline_args.length ≤ s.pipeline_results.length + 1

/-! ## Arrays -/

theorem arrayGet_natCast {J : Type} (xs : List (Option J)) (i : Nat) :
    arrayGet xs (i : Int) = xs.getD i none := by
  unfold arrayGet
  have h : ¬ ((i : Int) < 0) := by omega
  simp [h]

theorem arrayGet_of_length_le {J : Type} (xs : List (Option J)) (i : Nat)
    (h : xs.length ≤ i) : arrayGet xs (i : Int) = none := by
  rw [arrayGet_natCast, List.getD_eq_default _ _ h]

theorem arraySet_length {J : Type} (xs : List (Option J)) (i : Nat) (v : J) :
    (arraySet xs i v).length = max xs.length (i + 1) := by
  unfold arraySet
  split
  · simp; omega
  · simp; omega

theorem arrayGet_arraySet_self {J : Type} (xs : List (Option J)) (i : Nat) (v : J) :
    arrayGet (arraySet xs i v) (i : Int) = some v := by
  rw [arrayGet_natCast]
  unfold arraySet
  split
  · rename_i h
    simp [List.getD_eq_getElem?_getD, List.getElem?_set, h]
  · rename_i h
    have h1 : (xs ++ List.replicate (i - xs.length) none).length = i := by
      simp; omega
    rw [List.getD_eq_getElem?_getD, List.getElem?_append_right (by omega)]
    simp [h1]

theorem arrayGet_arraySet_of_ne {J : Type} (xs : List (Option J)) (i j : Nat) (v : J)
    (h : j ≠ i) : arrayGet (arraySet xs i v) (j : Int) = arrayGet xs (j : Int) := by
  rw [arrayGet_natCast, arrayGet_natCast]
  unfold arraySet
  split
  · simp [List.getD_eq_getElem?_getD, List.getElem?_set, Ne.symm h]
  · rename_i hi
    simp only [List.getD_eq_getElem?_getD]
    by_cases hj : j < xs.length
    · rw [List.append_assoc, List.getElem?_append_left hj]
    · have hx : xs[j]? = none := List.getElem?_eq_none (by omega)
      rw [hx]
      by_cases hji : j < i
      · rw [List.getElem?_append_left (by simp; omega),
          List.getElem?_append_right (by omega)]
        rw [List.getElem?_replicate, if_pos (by omega)]
        rfl
      · rw [List.getElem?_eq_none (by simp; omega)]

theorem noGaps_iff {J : Type} (xs : List (Option J)) :
    noGaps xs = true ↔ ∀ i : Nat, i < xs.length → (arrayGet xs (i : Int)).isSome = true := by
  unfold noGaps
  rw [List.all_eq_true]
  constructor
  · intro h i hi
    rw [arrayGet_natCast, List.getD_eq_getElem _ _ hi]
    exact h _ (List.getElem_mem hi)
  · intro h x hx
    obtain ⟨i, hi, rfl⟩ := List.getElem_of_mem hx
    have := h i hi
    rwa [arrayGet_natCast, List.getD_eq_getElem _ _ hi] at this

theorem isSome_arrayGet_iff {J : Type} (xs : List (Option J)) (hx : noGaps xs = true)
    (i : Nat) : (arrayGet xs (i : Int)).isSome = true ↔ i < xs.length := by
  constructor
  · intro h
    by_contra hc
    rw [arrayGet_of_length_le xs i (by omega)] at h
    simp at h
  · exact (noGaps_iff xs).1 hx i

theorem noGaps_arraySet {J : Type} (xs : List (Option J)) (i : Nat) (v : J)
    (hx : noGaps xs = true) (hi : i ≤ xs.length) : noGaps (arraySet xs i v) = true := by
  rw [noGaps_iff]
  intro j hj
  rw [arraySet_length] at hj
  by_cases hji : j = i
  · subst hji
    rw [arrayGet_arraySet_self]
    rfl
  · rw [arrayGet_arraySet_of_ne xs i j v hji]
    exact (noGaps_iff xs).1 hx j (by omega)

/-! ## One call of `execPipeline` -/

theorem execPipeline_of_parse_none {J : Type} (json : JSONLib J) (cmd args : String)
    (proc : String → String → ExecResult) (s : Store J) (h : json.parse args = none) :
    execPipeline json cmd args proc s = (s, [], Completion.thrownParsingArgs) := by
  unfold execPipeline
  rw [h]

theorem execPipeline_of_stdout {J : Type} (json : JSONLib J) (cmd args : String)
    (proc : String → String → ExecResult) (s : Store J) (a : J)
    (h : json.parse args = some a) (hout : (proc cmd args).stdout ≠ "") :
    execPipeline json cmd args proc s =
      ({ s with pipeline_args := arraySet s.pipeline_args s.current_module a },
        [Effect.writeFileSync args], Completion.called (some (proc cmd args).stdout)) := by
  unfold execPipeline
  rw [h]
  simp only [if_pos hout]

theorem execPipeline_of_data_none {J : Type} (json : JSONLib J) (cmd args : String)
    (proc : String → String → ExecResult) (s : Store J) (a : J)
    (h : json.parse args = some a) (hout : (proc cmd args).stdout = "")
    (hdata : json.parse (proc cmd args).data = none) :
    execPipeline json cmd args proc s =
      ({ s with pipeline_args := arraySet s.pipeline_args s.current_module a },
        [Effect.writeFileSync args], Completion.thrownParsingData) := by
  unfold execPipeline
  rw [h]
  simp only [hout, hdata, ne_eq, not_true_eq_false, if_false]

theorem execPipeline_of_data_some {J : Type} (json : JSONLib J) (cmd args : String)
    (proc : String → String → ExecResult) (s : Store J) (a result : J)
    (h : json.parse args = some a) (hout : (proc cmd args).stdout = "")
    (hdata : json.parse (proc cmd args).data = some result) :
    execPipeline json cmd args proc s =
      ({ pipeline_args := arraySet s.pipeline_args s.current_module a
         pipeline_results := arraySet s.pipeline_results s.current_module result
         current_module := s.current_module },
        [Effect.writeFileSync args], Completion.called none) := by
  unfold execPipeline
  rw [h]
  simp only [hout, hdata, ne_eq, not_true_eq_false, if_false]

theorem onEXECUTE_of_data_some {J : Type} (json : JSONLib J) (cmd args : String)
    (proc : String → String → ExecResult) (s : Store J) (a result : J)
    (h : json.parse args = some a) (hout : (proc cmd args).stdout = "")
    (hdata : json.parse (proc cmd args).data = some result) :
    onEXECUTE json cmd args proc s =
      ({ pipeline_args := arraySet s.pipeline_args s.current_module a
         pipeline_results := arraySet s.pipeline_results s.current_module result
         current_module := s.current_module },
        [Effect.writeFileSync args, Effect.sendEXECUTE none]) := by
  unfold onEXECUTE
  rw [execPipeline_of_data_some json cmd args proc s a result h hout hdata]
  rfl

theorem goToModule_of_not_lt {J : Type} (t : Nat) (s : Store J)
    (h : ¬ (s.pipeline_args.length < t + 1 ∧ s.pipeline_results.length < t)) :
    goToModule t s =
      (true, { s with current_module := t }, [Effect.loadURL t]) := by
  unfold goToModule
  rw [if_neg h]

theorem goToModule_of_lt {J : Type} (t : Nat) (s : Store J)
    (h : s.pipeline_args.length < t + 1 ∧ s.pipeline_results.length < t) :
    goToModule t s = (false, s, []) := by
  unfold goToModule
  rw [if_pos h]

theorem goToModule_eq_true_iff {J : Type} (t : Nat) (s : Store J) :
    (goToModule t s).1 = true ↔
      ¬ (s.pipeline_args.length < t + 1 ∧ s.pipeline_results.length < t) := by
  by_cases h : s.pipeline_args.length < t + 1 ∧ s.pipeline_results.length < t
  · rw [goToModule_of_lt t s h]
    simp [h]
  · rw [goToModule_of_not_lt t s h]
    simp [h]

theorem onLOADMODULE_of_not_lt {J : Type} (t : Nat) (s : Store J)
    (h : ¬ (s.pipeline_args.length < t + 1 ∧ s.pipeline_results.length < t)) :
    onLOADMODULE t s =
      ({ s with current_module := t },
        [Effect.loadURL t,
          Effect.sendNEW (arrayGet s.pipeline_args (t : Int))
            (arrayGet s.pipeline_results ((t : Int) - 1))]) := by
  unfold onLOADMODULE
  rw [goToModule_of_not_lt t s h]
  rfl

/-! ## Claims about one call -/

/-- C2: in every store, `execPipeline` on an argument text that parses, with
a stage that prints nothing and leaves a text parsing to `result` in
`args.json`, stores `result` at `pipeline_results[current_module]` and calls
the callback with `null`; the `EXECUTE` handler then replies `null`. -/
theorem execPipeline_success {J : Type} (json : JSONLib J) (cmd args : String)
    (proc : String → String → ExecResult) (s : Store J) (a result : J)
    (hargs : json.parse args = some a) (hout : (proc cmd args).stdout = "")
    (hdata : json.parse (proc cmd args).data = some result) :
    (execPipeline json cmd args proc s).2.2 = Completion.called none ∧
    (execPipeline json cmd args proc s).1.pipeline_results =
      arraySet s.pipeline_results s.current_module result ∧
    arrayGet (execPipeline json cmd args proc s).1.pipeline_results
      (s.current_module : Int) = some result ∧
    (execPipeline json cmd args proc s).1.current_module = s.current_module ∧
    (onEXECUTE json cmd args proc s).2 =
      [Effect.writeFileSync args, Effect.sendEXECUTE none] := by
  unfold onEXECUTE
  rw [execPipeline_of_data_some json cmd args proc s a result hargs hout hdata]
  refine ⟨rfl, rfl, ?_, rfl, rfl⟩
  exact arrayGet_arraySet_self _ _ _

theorem execPipeline_success_witness :
    exampleJSON.parse "\x7b\"a\":1\x7d" = some [("a", 1)] ∧
    (execPipeline exampleJSON "stage0" "\x7b\"a\":1\x7d" exampleStage
      (initialStore exampleJSON)).2.2 = Completion.called none ∧
    arrayGet (execPipeline exampleJSON "stage0" "\x7b\"a\":1\x7d" exampleStage
      (initialStore exampleJSON)).1.pipeline_results
      ((initialStore exampleJSON).current_module : Int) = some [("a", 1), ("b", 2)] :=
  have h := execPipeline_success exampleJSON "stage0" "\x7b\"a\":1\x7d" exampleStage
    (initialStore exampleJSON) [("a", 1)] [("a", 1), ("b", 2)]
    (by decide) (by decide) (by decide)
  ⟨by decide, h.1, h.2.2.1⟩

/-- C3: in every store, `execPipeline` on an argument text that parses, with
a stage whose output `D` is not empty, calls the callback with exactly `D`
(the `EXECUTE` handler replies `D`) and leaves `pipeline_results` as it
was. -/
theorem execPipeline_reports_diagnostic {J : Type} (json : JSONLib J) (cmd args : String)
    (proc : String → String → ExecResult) (s : Store J) (a : J) (D : String)
    (hargs : json.parse args = some a) (hD : (proc cmd args).stdout = D) (hne : D ≠ "") :
    (execPipeline json cmd args proc s).2.2 = Completion.called (some D) ∧
    (execPipeline json cmd args proc s).1.pipeline_results = s.pipeline_results ∧
    (onEXECUTE json cmd args proc s).2 =
      [Effect.writeFileSync args, Effect.sendEXECUTE (some D)] := by
  subst hD
  unfold onEXECUTE
  rw [execPipeline_of_stdout json cmd args proc s a hargs hne]
  exact ⟨rfl, rfl, rfl⟩

theorem execPipeline_reports_diagnostic_witness :
    (execPipeline exampleJSON "stage0" "\x7b\"a\":1\x7d" failingStage
      (initialStore exampleJSON)).2.2 = Completion.called (some "boom") ∧
    (execPipeline exampleJSON "stage0" "\x7b\"a\":1\x7d" failingStage
      (initialStore exampleJSON)).1.pipeline_results = [] :=
  have h := execPipeline_reports_diagnostic exampleJSON "stage0" "\x7b\"a\":1\x7d" failingStage
    (initialStore exampleJSON) [("a", 1)] "boom" (by decide) rfl (by decide)
  ⟨h.1, h.2.1⟩

/-- C4: in every store, `execPipeline` on an argument text that does not
parse ends with the `SyntaxError` of the first `JSON.parse`, before anything
is recorded: the store is the one before the call (so the result and the
argument of the current module are as they were), nothing is written to
`args.json`, and the callback is not called. -/
theorem execPipeline_malformed_argument {J : Type} (json : JSONLib J) (cmd args : String)
    (proc : String → String → ExecResult) (s : Store J) (hargs : json.parse args = none) :
    (execPipeline json cmd args proc s).2.2 = Completion.thrownParsingArgs ∧
    (execPipeline json cmd args proc s).1 = s ∧
    arrayGet (execPipeline json cmd args proc s).1.pipeline_results (s.current_module : Int) =
      arrayGet s.pipeline_results (s.current_module : Int) ∧
    (execPipeline json cmd args proc s).1.pipeline_args = s.pipeline_args ∧
    (execPipeline json cmd args proc s).2.1 = [] := by
  rw [execPipeline_of_parse_none json cmd args proc s hargs]
  exact ⟨rfl, rfl, rfl, rfl, rfl⟩

theorem execPipeline_malformed_argument_witness :
    exampleJSON.parse "\x7ba:" = none ∧
    (execPipeline exampleJSON "stage0" "\x7ba:" exampleStage
      (initialStore exampleJSON)).1 = initialStore exampleJSON ∧
    arrayGet (execPipeline exampleJSON "stage0" "\x7ba:" exampleStage
      (initialStore exampleJSON)).1.pipeline_results 0 = none :=
  have h := execPipeline_malformed_argument exampleJSON "stage0" "\x7ba:" exampleStage
    (initialStore exampleJSON) (by decide)
  ⟨by decide, h.2.1, h.2.2.1.trans (by decide)⟩

/-- C5, as stated, fails: from the initial store, a call with the argument
text `{"a":1}` whose stage prints `boom` ends with `callback("boom")`, and
the store afterwards is not the store before, since `pipeline_args[0]` has
been overwritten by line 91 before the stage ran. -/
theorem failed_stage_overwrites_argument :
    (execPipeline exampleJSON "stage0" "\x7b\"a\":1\x7d" failingStage
      (initialStore exampleJSON)).2.2 = Completion.called (some "boom") ∧
    (execPipeline exampleJSON "stage0" "\x7b\"a\":1\x7d" failingStage
      (initialStore exampleJSON)).1 ≠ initialStore exampleJSON ∧
    (initialStore exampleJSON).pipeline_args = [some []] ∧
    (execPipeline exampleJSON "stage0" "\x7b\"a\":1\x7d" failingStage
      (initialStore exampleJSON)).1.pipeline_args = [some [("a", 1)]] := by
  decide

/-- C5, amended: a call of `execPipeline` that ends with the callback
receiving a diagnostic text `D` leaves `pipeline_results` and
`current_module` as they were; `pipeline_args` is the array before with the
parsed argument assigned at `current_module`, so every other argument entry
is as it was. -/
theorem failed_stage_frame {J : Type} (json : JSONLib J) (cmd args : String)
    (proc : String → String → ExecResult) (s : Store J) (D : String)
    (h : (execPipeline json cmd args proc s).2.2 = Completion.called (some D)) :
    (execPipeline json cmd args proc s).1.pipeline_results = s.pipeline_results ∧
    (execPipeline json cmd args proc s).1.current_module = s.current_module ∧
    (∃ a, json.parse args = some a ∧
      (execPipeline json cmd args proc s).1.pipeline_args =
        arraySet s.pipeline_args s.current_module a) ∧
    (∀ j : Nat, j ≠ s.current_module →
      arrayGet (execPipeline json cmd args proc s).1.pipeline_args (j : Int) =
        arrayGet s.pipeline_args (j : Int)) := by
  cases hargs : json.parse args with
  | none =>
    rw [execPipeline_of_parse_none json cmd args proc s hargs] at h
    cases h
  | some a =>
    by_cases hout : (proc cmd args).stdout = ""
    · cases hdata : json.parse (proc cmd args).data with
      | none =>
        rw [execPipeline_of_data_none json cmd args proc s a hargs hout hdata] at h
        cases h
      | some result =>
        rw [execPipeline_of_data_some json cmd args proc s a result hargs hout hdata] at h
        cases h
    · rw [execPipeline_of_stdout json cmd args proc s a hargs hout]
      refine ⟨rfl, rfl, ⟨a, rfl, rfl⟩, ?_⟩
      intro j hj
      exact arrayGet_arraySet_of_ne _ _ _ _ hj

theorem failed_stage_frame_witness :
    (execPipeline exampleJSON "stage0" "\x7b\"a\":1\x7d" failingStage
      (initialStore exampleJSON)).2.2 = Completion.called (some "boom") ∧
    (execPipeline exampleJSON "stage0" "\x7b\"a\":1\x7d" failingStage
      (initialStore exampleJSON)).1.pipeline_results = [] ∧
    (execPipeline exampleJSON "stage0" "\x7b\"a\":1\x7d" failingStage
      (initialStore exampleJSON)).1.current_module = 0 :=
  have h := failed_stage_frame exampleJSON "stage0" "\x7b\"a\":1\x7d"
    failingStage (initialStore exampleJSON) "boom" (by decide)
  ⟨by decide, h.1, h.2.1⟩

/-! ## Claims about navigation -/

/-- C6: in every store, when `goToModule t` returns `true`, `current_module`
is `t` afterwards, both arrays are as they were, and the `LOADMODULE`
handler loads the page of module `t` and sends it the pair
`(pipeline_args[t], pipeline_results[t-1])` read from the store. -/
theorem goToModule_success {J : Type} (t : Nat) (s : Store J)
    (h : (goToModule t s).1 = true) :
    (goToModule t s).2.1.current_module = t ∧
    (goToModule t s).2.1.pipeline_args = s.pipeline_args ∧
    (goToModule t s).2.1.pipeline_results = s.pipeline_results ∧
    (onLOADMODULE t s).1 = (goToModule t s).2.1 ∧
    (onLOADMODULE t s).2 =
      [Effect.loadURL t,
        Effect.sendNEW (arrayGet s.pipeline_args (t : Int))
          (arrayGet s.pipeline_results ((t : Int) - 1))] := by
  have hc := (goToModule_eq_true_iff t s).1 h
  rw [onLOADMODULE_of_not_lt t s hc, goToModule_of_not_lt t s hc]
  exact ⟨rfl, rfl, rfl, rfl, rfl⟩

theorem goToModule_success_witness :
    (goToModule 1 ({ pipeline_args := [some [("a", 1)]]
                     pipeline_results := [some [("a", 1), ("b", 2)]]
                     current_module := 0 } : Store (List (String × Int)))).1 = true ∧
    (onLOADMODULE 1 ({ pipeline_args := [some [("a", 1)]]
                       pipeline_results := [some [("a", 1), ("b", 2)]]
                       current_module := 0 } : Store (List (String × Int)))).2 =
      [Effect.loadURL 1, Effect.sendNEW none (some [("a", 1), ("b", 2)])] :=
  have h := goToModule_success 1 ({ pipeline_args := [some [("a", 1)]]
                                    pipeline_results := [some [("a", 1), ("b", 2)]]
                                    current_module := 0 } : Store (List (String × Int)))
    (by decide)
  ⟨by decide, h.2.2.2.2.trans (by decide)⟩

/-- C8: in every store, `goToModule 0` returns `true` and sets
`current_module` to 0, and the `LOADMODULE` handler for module 0 does not
send `DENIED`: it loads the page and sends it the pair
`(pipeline_args[0], undefined)`. -/
theorem goToModule_zero {J : Type} (s : Store J) :
    (goToModule 0 s).1 = true ∧
    (goToModule 0 s).2.1.current_module = 0 ∧
    (onLOADMODULE 0 s).1.current_module = 0 ∧
    (onLOADMODULE 0 s).2 =
      [Effect.loadURL 0, Effect.sendNEW (arrayGet s.pipeline_args 0) none] ∧
    Effect.sendDENIED ∉ (onLOADMODULE 0 s).2 := by
  have h0 : ¬ (s.pipeline_args.length < 0 + 1 ∧ s.pipeline_results.length < 0) := by
    omega
  unfold onLOADMODULE
  rw [goToModule_of_not_lt 0 s h0]
  refine ⟨rfl, rfl, rfl, ?_, ?_⟩
  · simp [onDomReady, arrayGet]
  · simp [onDomReady]

/-! ## The replies of the `EXECUTE` handler -/

/-- C7, as stated, fails: an `EXECUTE` request whose argument text is not
well-formed JSON gets no reply. The first `JSON.parse` throws inside the
handler, the callback is never called, and nothing is sent. -/
theorem onEXECUTE_malformed_no_reply :
    exampleJSON.parse "\x7ba:" = none ∧
    (onEXECUTE exampleJSON "stage0" "\x7ba:" exampleStage (initialStore exampleJSON)).2 = [] ∧
    (∀ r, Effect.sendEXECUTE r ∉
      (onEXECUTE exampleJSON "stage0" "\x7ba:" exampleStage (initialStore exampleJSON)).2) := by
  refine ⟨by decide, by decide, ?_⟩
  intro r
  have h : (onEXECUTE exampleJSON "stage0" "\x7ba:" exampleStage
      (initialStore exampleJSON)).2 = [] := by decide
  rw [h]
  exact List.not_mem_nil _

/-- C7, amended: an `EXECUTE` request whose argument text is well-formed
JSON gets exactly one reply on the `EXECUTE` channel when the stage prints a
diagnostic text (the reply is that text) and when it prints nothing and
leaves well-formed JSON in `args.json` (the reply is `null`). A request
whose argument text is not well-formed JSON gets no reply. -/
theorem onEXECUTE_reply {J : Type} (json : JSONLib J) (cmd args : String)
    (proc : String → String → ExecResult) (s : Store J) :
    (∀ a, json.parse args = some a → (proc cmd args).stdout ≠ "" →
      (onEXECUTE json cmd args proc s).2 =
        [Effect.writeFileSync args, Effect.sendEXECUTE (some (proc cmd args).stdout)]) ∧
    (∀ a result, json.parse args = some a → (proc cmd args).stdout = "" →
      json.parse (proc cmd args).data = some result →
      (onEXECUTE json cmd args proc s).2 =
        [Effect.writeFileSync args, Effect.sendEXECUTE none]) ∧
    (json.parse args = none → (onEXECUTE json cmd args proc s).2 = []) := by
  refine ⟨?_, ?_, ?_⟩
  · intro a hargs hout
    unfold onEXECUTE
    rw [execPipeline_of_stdout json cmd args proc s a hargs hout]
    rfl
  · intro a result hargs hout hdata
    unfold onEXECUTE
    rw [execPipeline_of_data_some json cmd args proc s a result hargs hout hdata]
    rfl
  · intro hargs
    unfold onEXECUTE
    rw [execPipeline_of_parse_none json cmd args proc s hargs]

theorem onEXECUTE_reply_witness :
    (onEXECUTE exampleJSON "stage0" "\x7b\"a\":1\x7d" failingStage
      (initialStore exampleJSON)).2 =
      [Effect.writeFileSync "\x7b\"a\":1\x7d", Effect.sendEXECUTE (some "boom")] ∧
    (onEXECUTE exampleJSON "stage0" "\x7b\"a\":1\x7d" exampleStage
      (initialStore exampleJSON)).2 =
      [Effect.writeFileSync "\x7b\"a\":1\x7d", Effect.sendEXECUTE none] ∧
    (onEXECUTE exampleJSON "stage0" "oops" exampleStage (initialStore exampleJSON)).2 = [] :=
  ⟨(onEXECUTE_reply exampleJSON "stage0" "\x7b\"a\":1\x7d" failingStage
      (initialStore exampleJSON)).1 [("a", 1)] (by decide) (by decide),
   (onEXECUTE_reply exampleJSON "stage0" "\x7b\"a\":1\x7d" exampleStage
      (initialStore exampleJSON)).2.1 [("a", 1)] [("a", 1), ("b", 2)]
      (by decide) (by decide) (by decide),
   (onEXECUTE_reply exampleJSON "stage0" "oops" exampleStage
      (initialStore exampleJSON)).2.2 (by decide)⟩

/-! ## Sequences of events -/

theorem onEXECUTE_fst {J : Type} (json : JSONLib J) (cmd args : String)
    (proc : String → String → ExecResult) (s : Store J) :
    (onEXECUTE json cmd args proc s).1 = (execPipeline json cmd args proc s).1 := by
  unfold onEXECUTE
  split <;> simp_all

theorem onLOADMODULE_fst {J : Type} (t : Nat) (s : Store J) :
    (onLOADMODULE t s).1 = (goToModule t s).2.1 := by
  unfold onLOADMODULE
  split <;> simp_all

/-- The four ways a call of `execPipeline` can go. -/
theorem execPipeline_cases {J : Type} (json : JSONLib J) (cmd args : String)
    (proc : String → String → ExecResult) (s : Store J) :
    (execPipeline json cmd args proc s = (s, [], Completion.thrownParsingArgs)) ∨
    (∃ a, execPipeline json cmd args proc s =
      ({ s with pipeline_args := arraySet s.pipeline_args s.current_module a },
        [Effect.writeFileSync args], Completion.called (some (proc cmd args).stdout))) ∨
    (∃ a, execPipeline json cmd args proc s =
      ({ s with pipeline_args := arraySet s.pipeline_args s.current_module a },
        [Effect.writeFileSync args], Completion.thrownParsingData)) ∨
    (∃ a result, execPipeline json cmd args proc s =
      ({ pipeline_args := arraySet s.pipeline_args s.current_module a
         pipeline_results := arraySet s.pipeline_results s.current_module result
         current_module := s.current_module },
        [Effect.writeFileSync args], Completion.called none)) := by
  cases hargs : json.parse args with
  | none => exact Or.inl (execPipeline_of_parse_none json cmd args proc s hargs)
  | some a =>
    by_cases hout : (proc cmd args).stdout = ""
    · cases hdata : json.parse (proc cmd args).data with
      | none =>
        exact Or.inr (Or.inr (Or.inl
          ⟨a, execPipeline_of_data_none json cmd args proc s a hargs hout hdata⟩))
      | some result =>
        exact Or.inr (Or.inr (Or.inr
          ⟨a, result, execPipeline_of_data_some json cmd args proc s a result hargs hout hdata⟩))
    · exact Or.inr (Or.inl ⟨a, execPipeline_of_stdout json cmd args proc s a hargs hout⟩)

theorem wellShaped_initialStore {J : Type} (json : JSONLib J) :
    wellShaped (initialStore json) := by
  unfold wellShaped initialStore noGaps
  simp

theorem wellShaped_goToModule {J : Type} (t : Nat) (s : Store J) (h : wellShaped s) :
    wellShaped (goToModule t s).2.1 := by
  by_cases hc : s.pipeline_args.length < t + 1 ∧ s.pipeline_results.length < t
  · rw [goToModule_of_lt t s hc]
    exact h
  · rw [goToModule_of_not_lt t s hc]
    obtain ⟨h1, h2, h3, h4, h5⟩ := h
    refine ⟨h1, h2, ?_, h4, h5⟩
    show t ≤ s.pipeline_results.length
    omega

theorem wellShaped_execPipeline {J : Type} (json : JSONLib J) (cmd args : String)
    (proc : String → String → ExecResult) (s : Store J) (h : wellShaped s) :
    wellShaped (execPipeline json cmd args proc s).1 := by
  obtain ⟨h1, h2, h3, h4, h5⟩ := h
  have hargs : ∀ a, noGaps (arraySet s.pipeline_args s.current_module a) = true :=
    fun a => noGaps_arraySet _ _ a h1 (by omega)
  have hlen : ∀ a, (arraySet s.pipeline_args s.current_module a).length =
      max s.pipeline_args.length (s.current_module + 1) :=
    fun a => arraySet_length _ _ a
  rcases execPipeline_cases json cmd args proc s with
    he | ⟨a, he⟩ | ⟨a, he⟩ | ⟨a, result, he⟩
  · rw [he]
    exact ⟨h1, h2, h3, h4, h5⟩
  · rw [he]
    refine ⟨hargs a, h2, h3, ?_, ?_⟩
    · show s.pipeline_results.length ≤ (arraySet s.pipeline_args s.current_module a).length
      rw [hlen]; omega
    · show (arraySet s.pipeline_args s.current_module a).length ≤ s.pipeline_results.length + 1
      rw [hlen]; omega
  · rw [he]
    refine ⟨hargs a, h2, h3, ?_, ?_⟩
    · show s.pipeline_results.length ≤ (arraySet s.pipeline_args s.current_module a).length
      rw [hlen]; omega
    · show (arraySet s.pipeline_args s.current_module a).length ≤ s.pipeline_results.length + 1
      rw [hlen]; omega
  · rw [he]
    refine ⟨hargs a, noGaps_arraySet _ _ result h2 h3, ?_, ?_, ?_⟩
    · show s.current_module ≤ (arraySet s.pipeline_results s.current_module result).length
      rw [arraySet_length]; omega
    · show (arraySet s.pipeline_results s.current_module result).length ≤
        (arraySet s.pipeline_args s.current_module a).length
      rw [hlen, arraySet_length]; omega
    · show (arraySet s.pipeline_args s.current_module a).length ≤
        (arraySet s.pipeline_results s.current_module result).length + 1
      rw [hlen, arraySet_length]; omega

theorem wellShaped_step {J : Type} (json : JSONLib J) (e : Event) (s : Store J)
    (h : wellShaped s) : wellShaped (step json e s) := by
  cases e with
  | LOADMODULE t =>
    show wellShaped (onLOADMODULE t s).1
    rw [onLOADMODULE_fst]
    exact wellShaped_goToModule t s h
  | EXECUTE cmd args proc =>
    show wellShaped (onEXECUTE json cmd args proc s).1
    rw [onEXECUTE_fst]
    exact wellShaped_execPipeline json cmd args proc s h

theorem wellShaped_run {J : Type} (json : JSONLib J) (events : List Event) :
    ∀ s : Store J, wellShaped s → wellShaped (run json events s) := by
  induction events with
  | nil => intro s h; exact h
  | cons e es ih => intro s h; exact ih _ (wellShaped_step json e s h)

theorem wellShaped_reached {J : Type} (json : JSONLib J) (events : List Event) :
    wellShaped (reached json events) :=
  wellShaped_run json events _ (wellShaped_initialStore json)

theorem goToModule_arrays {J : Type} (t : Nat) (s : Store J) :
    (goToModule t s).2.1.pipeline_args = s.pipeline_args ∧
    (goToModule t s).2.1.pipeline_results = s.pipeline_results := by
  by_cases hc : s.pipeline_args.length < t + 1 ∧ s.pipeline_results.length < t
  · rw [goToModule_of_lt t s hc]
    exact ⟨rfl, rfl⟩
  · rw [goToModule_of_not_lt t s hc]
    exact ⟨rfl, rfl⟩

/-- Along a sequence of events from a well-shaped store, the positions of
`pipeline_results` that are filled at the end are those filled at the start
and the modules whose stage ended with `callback(null)`. -/
theorem lt_results_run_iff {J : Type} (json : JSONLib J) (events : List Event) :
    ∀ s : Store J, wellShaped s → ∀ i : Nat,
      (i < (run json events s).pipeline_results.length ↔
        i < s.pipeline_results.length ∨ i ∈ completedStages json events s) := by
  induction events with
  | nil =>
    intro s _ i
    simp [run, completedStages]
  | cons e es ih =>
    intro s hs i
    have hstep := wellShaped_step json e s hs
    cases e with
    | LOADMODULE t =>
      show i < (run json es (step json (Event.LOADMODULE t) s)).pipeline_results.length ↔
        i < s.pipeline_results.length ∨
          i ∈ completedStages json es (step json (Event.LOADMODULE t) s)
      rw [ih _ hstep i]
      have hr : (step json (Event.LOADMODULE t) s).pipeline_results = s.pipeline_results := by
        show (onLOADMODULE t s).1.pipeline_results = s.pipeline_results
        rw [onLOADMODULE_fst]
        exact (goToModule_arrays t s).2
      rw [hr]
    | EXECUTE cmd args proc =>
      show i < (run json es (step json (Event.EXECUTE cmd args proc) s)).pipeline_results.length ↔
        i < s.pipeline_results.length ∨
          i ∈ (if (execPipeline json cmd args proc s).2.2 = Completion.called none then
              [s.current_module] else []) ++
            completedStages json es (step json (Event.EXECUTE cmd args proc) s)
      rw [ih _ hstep i]
      have hst : step json (Event.EXECUTE cmd args proc) s =
          (execPipeline json cmd args proc s).1 := onEXECUTE_fst json cmd args proc s
      rw [hst]
      have h3 : s.current_module ≤ s.pipeline_results.length := hs.2.2.1
      rcases execPipeline_cases json cmd args proc s with
        he | ⟨a, he⟩ | ⟨a, he⟩ | ⟨a, result, he⟩
      · rw [he]; simp
      · rw [he]; simp
      · rw [he]; simp
      · rw [he]
        simp only [if_true, List.mem_append, List.mem_singleton, arraySet_length]
        constructor
        · rintro (h | h)
          · by_cases hi : i < s.pipeline_results.length
            · exact Or.inl hi
            · exact Or.inr (Or.inl (by omega))
          · exact Or.inr (Or.inr h)
        · rintro (h | h | h)
          · exact Or.inl (by omega)
          · exact Or.inl (by omega)
          · exact Or.inr h

/-- An entry of `pipeline_args` is only written by an `EXECUTE` message
received while `current_module` is its index. -/
theorem arrayGet_args_run {J : Type} (json : JSONLib J) (events : List Event) :
    ∀ (s : Store J) (i : Nat), i ∉ executedModules json events s →
      arrayGet (run json events s).pipeline_args (i : Int) =
        arrayGet s.pipeline_args (i : Int) := by
  induction events with
  | nil => intro s i _; rfl
  | cons e es ih =>
    intro s i hi
    cases e with
    | LOADMODULE t =>
      have hi1 : i ∉ executedModules json es (step json (Event.LOADMODULE t) s) := hi
      show arrayGet (run json es (step json (Event.LOADMODULE t) s)).pipeline_args (i : Int) = _
      rw [ih _ i hi1]
      have hr : (step json (Event.LOADMODULE t) s).pipeline_args = s.pipeline_args := by
        show (onLOADMODULE t s).1.pipeline_args = s.pipeline_args
        rw [onLOADMODULE_fst]
        exact (goToModule_arrays t s).1
      rw [hr]
    | EXECUTE cmd args proc =>
      have hi0 : i ∉ s.current_module ::
          executedModules json es (step json (Event.EXECUTE cmd args proc) s) := hi
      rw [List.mem_cons, not_or] at hi0
      show arrayGet (run json es (step json (Event.EXECUTE cmd args proc) s)).pipeline_args
        (i : Int) = _
      rw [ih _ i hi0.2]
      have hst : step json (Event.EXECUTE cmd args proc) s =
          (execPipeline json cmd args proc s).1 := onEXECUTE_fst json cmd args proc s
      rw [hst]
      rcases execPipeline_cases json cmd args proc s with
        he | ⟨a, he⟩ | ⟨a, he⟩ | ⟨a, result, he⟩
      · rw [he]
      · rw [he]; exact arrayGet_arraySet_of_ne _ _ _ _ hi0.1
      · rw [he]; exact arrayGet_arraySet_of_ne _ _ _ _ hi0.1
      · rw [he]; exact arrayGet_arraySet_of_ne _ _ _ _ hi0.1

theorem arrayGet_eq_none_iff {J : Type} (xs : List (Option J)) (hx : noGaps xs = true)
    (i : Nat) : arrayGet xs (i : Int) = none ↔ xs.length ≤ i := by
  rw [← Option.not_isSome_iff_eq_none, isSome_arrayGet_iff xs hx i]
  omega

theorem onLOADMODULE_denied_iff {J : Type} (t : Nat) (s : Store J) :
    (onLOADMODULE t s).2 = [Effect.sendDENIED] ↔ (goToModule t s).1 = false := by
  by_cases hc : s.pipeline_args.length < t + 1 ∧ s.pipeline_results.length < t
  · unfold onLOADMODULE
    rw [goToModule_of_lt t s hc]
    simp
  · unfold onLOADMODULE
    rw [goToModule_of_not_lt t s hc]
    simp

/-! ## Claims about reachable stores -/

/-- C1: in every store reached from the initial one by `LOADMODULE` and
`EXECUTE` messages, and for every module number `k > 0`, `goToModule k`
returns `false` exactly when `pipeline_results[k-1]` and `pipeline_args[k]`
are both undefined, and the `LOADMODULE` handler answers `DENIED` in exactly
that case. -/
theorem goToModule_fails_iff {J : Type} (json : JSONLib J) (events : List Event)
    (k : Nat) (hk : 0 < k) :
    ((goToModule k (reached json events)).1 = false ↔
      (arrayGet (reached json events).pipeline_results ((k : Int) - 1) = none ∧
        arrayGet (reached json events).pipeline_args (k : Int) = none)) ∧
    ((onLOADMODULE k (reached json events)).2 = [Effect.sendDENIED] ↔
      (arrayGet (reached json events).pipeline_results ((k : Int) - 1) = none ∧
        arrayGet (reached json events).pipeline_args (k : Int) = none)) := by
  obtain ⟨h1, h2, _, _, _⟩ := wellShaped_reached json events
  have hcast : ((k : Int) - 1) = ((k - 1 : Nat) : Int) := by omega
  have key : (goToModule k (reached json events)).1 = false ↔
      (arrayGet (reached json events).pipeline_results ((k : Int) - 1) = none ∧
        arrayGet (reached json events).pipeline_args (k : Int) = none) := by
    rw [hcast, arrayGet_eq_none_iff _ h2, arrayGet_eq_none_iff _ h1,
      ← Bool.not_eq_true, goToModule_eq_true_iff, not_not]
    omega
  exact ⟨key, (onLOADMODULE_denied_iff k _).trans key⟩

theorem goToModule_fails_iff_witness :
    (0 : Nat) < 1 ∧
    ((goToModule 1 (reached exampleJSON [])).1 = false ↔
      (arrayGet (reached exampleJSON []).pipeline_results (((1 : Nat) : Int) - 1) = none ∧
        arrayGet (reached exampleJSON []).pipeline_args ((1 : Nat) : Int) = none)) ∧
    (goToModule 1 (reached exampleJSON [])).1 = false :=
  ⟨by decide, (goToModule_fails_iff exampleJSON [] 1 (by decide)).1, by decide⟩

/-- C10: in every store reached from the initial one by `LOADMODULE` and
`EXECUTE` messages, neither array has a hole, `current_module` is at most
the length of `pipeline_results`, and `pipeline_args` has as many entries as
`pipeline_results` or one more. Hence for `n > 0`, `goToModule n` succeeds
exactly when stage `n-1` has ended with `callback(null)` at least once, and
an argument entry at `n` always comes with a result at `n-1`. -/
theorem reached_invariant {J : Type} (json : JSONLib J) (events : List Event) :
    noGaps (reached json events).pipeline_results = true ∧
    noGaps (reached json events).pipeline_args = true ∧
    (reached json events).current_module ≤ (reached json events).pipeline_results.length ∧
    (reached json events).pipeline_results.length ≤
      (reached json events).pipeline_args.length ∧
    (reached json events).pipeline_args.length ≤
      (reached json events).pipeline_results.length + 1 ∧
    (∀ n : Nat, 0 < n →
      ((goToModule n (reached json events)).1 = true ↔
        (n - 1) ∈ completedStages json events (initialStore json))) ∧
    (∀ n : Nat, 0 < n → n < (reached json events).pipeline_args.length →
      (arrayGet (reached json events).pipeline_results ((n : Int) - 1)).isSome = true) := by
  obtain ⟨h1, h2, h3, h4, h5⟩ := wellShaped_reached json events
  refine ⟨h2, h1, h3, h4, h5, ?_, ?_⟩
  · intro n hn
    have hiff := lt_results_run_iff json events (initialStore json)
      (wellShaped_initialStore json) (n - 1)
    have h0 : ¬ (n - 1 < (initialStore json).pipeline_results.length) := by
      simp [initialStore]
    rw [goToModule_eq_true_iff]
    have hiff2 : n - 1 < (reached json events).pipeline_results.length ↔
        (n - 1) ∈ completedStages json events (initialStore json) := by
      unfold reached
      rw [hiff]
      exact or_iff_right h0
    rw [← hiff2]
    omega
  · intro n hn hlt
    have hcast : ((n : Int) - 1) = ((n - 1 : Nat) : Int) := by omega
    rw [hcast, isSome_arrayGet_iff _ h2]
    omega

theorem reached_invariant_witness :
    (0 : Nat) < 1 ∧
    ((goToModule 1 (reached exampleJSON
        [Event.EXECUTE "stage0" "\x7b\"a\":1\x7d" exampleStage])).1 = true ↔
      (1 - 1) ∈ completedStages exampleJSON
        [Event.EXECUTE "stage0" "\x7b\"a\":1\x7d" exampleStage] (initialStore exampleJSON)) ∧
    (goToModule 1 (reached exampleJSON
        [Event.EXECUTE "stage0" "\x7b\"a\":1\x7d" exampleStage])).1 = true ∧
    (goToModule 1 (reached exampleJSON
        [Event.EXECUTE "stage0" "\x7b\"a\":1\x7d" failingStage])).1 = false :=
  ⟨by decide,
   (reached_invariant exampleJSON
      [Event.EXECUTE "stage0" "\x7b\"a\":1\x7d" exampleStage]).2.2.2.2.2.1 1 (by decide),
   by decide, by decide⟩

/-- A successful stage followed by a move to the next module, from any
store. -/
theorem execute_then_next {J : Type} (json : JSONLib J) (cmd args : String)
    (proc : String → String → ExecResult) (s : Store J) (a result : J)
    (hargs : json.parse args = some a) (hout : (proc cmd args).stdout = "")
    (hdata : json.parse (proc cmd args).data = some result) :
    (onEXECUTE json cmd args proc s).1 =
      { pipeline_args := arraySet s.pipeline_args s.current_module a
        pipeline_results := arraySet s.pipeline_results s.current_module result
        current_module := s.current_module } ∧
    (goToModule (s.current_module + 1) (onEXECUTE json cmd args proc s).1).1 = true ∧
    (onLOADMODULE (s.current_module + 1) (onEXECUTE json cmd args proc s).1).2 =
      [Effect.loadURL (s.current_module + 1),
        Effect.sendNEW
          (arrayGet s.pipeline_args ((s.current_module + 1 : Nat) : Int)) (some result)] := by
  have hst : (onEXECUTE json cmd args proc s).1 =
      { pipeline_args := arraySet s.pipeline_args s.current_module a
        pipeline_results := arraySet s.pipeline_results s.current_module result
        current_module := s.current_module } := by
    rw [onEXECUTE_fst, execPipeline_of_data_some json cmd args proc s a result hargs hout hdata]
  have hgo : (goToModule (s.current_module + 1) (onEXECUTE json cmd args proc s).1).1 = true := by
    rw [goToModule_eq_true_iff, hst]
    show ¬ (_ ∧ (arraySet s.pipeline_results s.current_module result).length <
      s.current_module + 1)
    simp only [arraySet_length]
    omega
  refine ⟨hst, hgo, ?_⟩
  rw [onLOADMODULE_of_not_lt _ _ ((goToModule_eq_true_iff _ _).1 hgo), hst]
  have hcast : (((s.current_module + 1 : Nat) : Int) - 1) = (s.current_module : Int) := by
    omega
  show [Effect.loadURL (s.current_module + 1),
      Effect.sendNEW
        (arrayGet (arraySet s.pipeline_args s.current_module a)
          ((s.current_module + 1 : Nat) : Int))
        (arrayGet (arraySet s.pipeline_results s.current_module result)
          (((s.current_module + 1 : Nat) : Int) - 1))] = _
  rw [hcast, arrayGet_arraySet_self,
    arrayGet_arraySet_of_ne _ _ _ _ (Nat.succ_ne_self s.current_module)]

/-- C9: from every store reached from the initial one, a call of the
`EXECUTE` handler whose argument text parses and whose stage prints nothing
and leaves a text parsing to `result` in `args.json` replies `null` and
makes `pipeline_results[k] = result`, where `k` is `current_module`. After
it, `goToModule (k+1)` returns `true` and the `LOADMODULE` handler sends the
new page the pair `(pipeline_args[k+1], result)`, whose first component is
undefined when no `EXECUTE` message was ever received at module `k+1`. -/
theorem end_to_end {J : Type} (json : JSONLib J) (events : List Event) (cmd args : String)
    (proc : String → String → ExecResult) (a result : J)
    (hargs : json.parse args = some a) (hout : (proc cmd args).stdout = "")
    (hdata : json.parse (proc cmd args).data = some result) :
    (onEXECUTE json cmd args proc (reached json events)).2 =
      [Effect.writeFileSync args, Effect.sendEXECUTE none] ∧
    arrayGet (onEXECUTE json cmd args proc (reached json events)).1.pipeline_results
      ((reached json events).current_module : Int) = some result ∧
    (goToModule ((reached json events).current_module + 1)
      (onEXECUTE json cmd args proc (reached json events)).1).1 = true ∧
    (onLOADMODULE ((reached json events).current_module + 1)
      (onEXECUTE json cmd args proc (reached json events)).1).2 =
      [Effect.loadURL ((reached json events).current_module + 1),
        Effect.sendNEW
          (arrayGet (reached json events).pipeline_args
            (((reached json events).current_module + 1 : Nat) : Int)) (some result)] ∧
    (((reached json events).current_module + 1) ∉
        executedModules json events (initialStore json) →
      arrayGet (reached json events).pipeline_args
        (((reached json events).current_module + 1 : Nat) : Int) = none) := by
  obtain ⟨hst, hgo, hload⟩ :=
    execute_then_next json cmd args proc (reached json events) a result hargs hout hdata
  refine ⟨?_, ?_, hgo, hload, ?_⟩
  · rw [onEXECUTE_of_data_some json cmd args proc (reached json events) a result
      hargs hout hdata]
  · rw [hst]
    exact arrayGet_arraySet_self _ _ _
  · intro hnot
    exact (arrayGet_args_run json events (initialStore json) _ hnot).trans
      (arrayGet_of_length_le _ _ (by simp [initialStore]))

theorem end_to_end_witness :
    (onEXECUTE exampleJSON "stage0" "\x7b\"a\":1\x7d" exampleStage
      (reached exampleJSON [])).2 =
      [Effect.writeFileSync "\x7b\"a\":1\x7d", Effect.sendEXECUTE none] ∧
    arrayGet (onEXECUTE exampleJSON "stage0" "\x7b\"a\":1\x7d" exampleStage
      (reached exampleJSON [])).1.pipeline_results 0 = some [("a", 1), ("b", 2)] ∧
    (goToModule 1 (onEXECUTE exampleJSON "stage0" "\x7b\"a\":1\x7d" exampleStage
      (reached exampleJSON [])).1).1 = true ∧
    (onLOADMODULE 1 (onEXECUTE exampleJSON "stage0" "\x7b\"a\":1\x7d" exampleStage
      (reached exampleJSON [])).1).2 =
      [Effect.loadURL 1, Effect.sendNEW none (some [("a", 1), ("b", 2)])] :=
  have h := end_to_end exampleJSON [] "stage0" "\x7b\"a\":1\x7d" exampleStage
    [("a", 1)] [("a", 1), ("b", 2)] (by decide) (by decide) (by decide)
  ⟨h.1, h.2.1, h.2.2.1, h.2.2.2.1.trans (by decide)⟩

end Primacy
